import Mathlib

/-!
Shallow embedding of the `mp_event_loop` package: `events.py` (Event /
CacheEvent and the object cache), `event_loop.py` (EventLoop scheduling,
output handlers, shutdown), `mp_functions.py` (dispatch-loop helpers,
`LoopQueueSize`, `stop_event_loop`) and `iter_event_loop.py` (the streaming
dispatch loop).  Python exceptions are modelled explicitly (`Except` /
error fields), machine-level concerns (pickling, real processes) are out of
scope; queues are lists, and per-iteration loop bodies are pure functions
from the fetched item and current state to the observable effects
(consumer-queue puts and `task_done` calls).
-/

/-- Python exception values that the embedded code paths construct or catch. -/
inductive PErr
  | invalidTarget      -- the ValueError("Invalid target ...") built inside exec_
  | raised (code : Nat) -- an arbitrary exception raised by user code
  deriving DecidableEq

/-- One step of an iterator: calling `next` either yields a value or raises a
(non-StopIteration) exception.  Exhaustion is the empty list of steps. -/
inductive IterStep
  | yieldV (v : Int)
  | raiseE (code : Nat)
  deriving DecidableEq

/-- Python runtime values, as far as the embedded code inspects them:
`noneV` is `None`; `intV`/`strV` are primitive scalars (stand-ins for the
whole `DO_NOT_REGISTER_TYPE` tuple `str, bytes, int, float, complex`);
`listV` is a list object (iterable but not an iterator — `next()` on it
raises TypeError); `genV` is a generator/iterator; `funcV` is a callable
object; `objV i` is a plain object with identity `i` (its `id()`). -/
inductive RVal
  | noneV
  | intV (n : Int)
  | strV (s : String)
  | listV (size : Nat)
  | genV (steps : List IterStep)
  | funcV (id : Nat)
  | objV (id : Nat)
  deriving DecidableEq

/-- The `target` attribute of an Event: either a Python callable (modelled by
the function it computes on the positional arguments, which may raise) or a
plain non-callable value (`value .noneV` is `target is None`). -/
inductive TVal
  | value (v : RVal)
  | func (f : List RVal → Except Nat RVal)

/-- Event.exec_ (events.py lines 37-49).  Resets results/error, then: if the
target is callable run it catching any exception into `error`; elif the
target is not None store the "Invalid target" ValueError; otherwise (target
is None) leave both fields None.  Returns `(results, error)`. -/
def Event.exec_ (target : TVal) (args : List RVal) : RVal × Option PErr :=
  match target with
  | .func f =>
      match f args with
      | .ok v => (v, none)
      | .error code => (.noneV, some (.raised code))
  | .value .noneV => (.noneV, none)
  | .value _ => (.noneV, some .invalidTarget)

/-- CacheEvent.exec_ (events.py lines 194-208).  Same as Event.exec_ for a
callable target, but when the target is None and `self.object` (the cached
receiver, here `object`) is not None, the receiver itself becomes the
result; in every remaining case the "Invalid target" error is stored. -/
def CacheEvent.exec_ (target : TVal) (args : List RVal) (object : RVal) :
    RVal × Option PErr :=
  match target with
  | .func f =>
      match f args with
      | .ok v => (v, none)
      | .error code => (.noneV, some (.raised code))
  | .value .noneV =>
      if object = .noneV then (.noneV, some .invalidTarget) else (object, none)
  | .value _ => (.noneV, some .invalidTarget)

/-- An item sitting on one of the multiprocessing queues: a real task, or the
distinguished stop sentinel that the specification describes. -/
inductive QItem
  | task (id : Nat)
  | sentinel
  deriving DecidableEq

/-- The state touched by `stop_event_loop` (mp_functions.py lines 81-104) and
`EventLoop.stop` (event_loop.py lines 392-406): the liveness flag, the two
queues, and whether each loop has been joined. -/
structure ELState where
  alive : Bool
  hasResults : Bool
  taskQueue : List QItem
  consumerQueue : List QItem
  eventJoined : Bool
  consumerJoined : Bool
  deriving DecidableEq

/-- stop_event_loop (mp_functions.py lines 81-104): clear the liveness flag
(AttributeError swallowed), join the event process, and join the consumer
process when one was passed (`joinConsumer`); every join error is swallowed.
It performs no queue operation at all. -/
def stop_event_loop (joinConsumer : Bool) (s : ELState) : ELState :=
  { s with alive := false
           eventJoined := true
           consumerJoined := s.consumerJoined || joinConsumer }

/-- EventLoop.stop (event_loop.py lines 392-406): forward the consumer
process to `stop_event_loop` only when `has_results` is set. -/
def EventLoop.stop (s : ELState) : ELState :=
  stop_event_loop s.hasResults s

/-- An event as it appears on the consumer queue (and as `process_output`
sees it): its key, its results value and its error field. -/
structure Emit where
  key : Option Nat
  results : RVal
  error : Option PErr
  deriving DecidableEq

/-- An output handler: an identity (so the invocation order is observable)
plus the predicate it computes on the event. -/
structure Handler where
  id : Nat
  fn : Emit → Bool

/-- The `for handler in self.output_handlers: if handler(event): break` loop
inside process_output: returns the ids of the handlers invoked, in order;
the first handler returning True is the last one invoked. -/
def runHandlers (ev : Emit) : List Handler → List Nat
  | [] => []
  | h :: rest => if h.fn ev then [h.id] else h.id :: runHandlers ev rest

/-- EventLoop.process_output (event_loop.py lines 95-106): if the event's
error field is set (`if event.error:` — the field is always None or an
exception instance, and exception instances are truthy) report it via
print_exception and invoke no handler; otherwise run the handler chain.
Returns the reported error (if any) and the invoked handler ids. -/
def EventLoop.process_output (ev : Emit) (handlers : List Handler) :
    Option PErr × List Nat :=
  match ev.error with
  | some e => (some e, [])
  | none => (none, runHandlers ev handlers)

/-- Modelled from the spec: the consumer-chain contract of §4.2 — handlers
run in insertion order and the first one that returns true short-circuits
the rest.  Stated independently of `runHandlers` so the theorem for C4 can
compare the code's loop against it. -/
def chainSpecInvoked (ev : Emit) (handlers : List Handler) : List Nat :=
  (handlers.takeWhile (fun h => !h.fn ev)).map Handler.id ++
    ((handlers.dropWhile (fun h => !h.fn ev)).head?.map Handler.id).toList

/-- Membership in CacheEvent.DO_NOT_REGISTER_TYPE (`str, bytes, int, float,
complex` — modelled by the two primitive constructors). -/
def doNotRegister (obj : RVal) : Bool :=
  match obj with
  | .intV _ => true
  | .strV _ => true
  | _ => false

/-- The string `str(id(obj))`.  Identity is modelled faithfully for `objV`
(the generic-object case); the other composites get a degenerate stand-in
(they never occur as receivers in the theorems below). -/
def pyIdStr : RVal → String
  | .objV i => toString i
  | .funcV i => "f" ++ toString i
  | .listV n => "l" ++ toString n
  | .genV _ => "g"
  | .intV n => toString n
  | .strV s => s
  | .noneV => "None"

/-- CacheEvent.get_object_key (events.py lines 79-84): primitive values and
None are their own key; every other object is keyed by `str(id(obj))`. -/
def CacheEvent.get_object_key (obj : RVal) : RVal :=
  if doNotRegister obj || obj = .noneV then obj else .strV (pyIdStr obj)

/-- A cache dictionary: an insertion-ordered association list with unique
keys, looked up and updated with Python `==` on keys. -/
abbrev Cache := List (RVal × RVal)

/-- Python `dict.get(k, None)`. -/
def dictGet (k : RVal) : Cache → Option RVal
  | [] => none
  | (k', v) :: rest => if k' = k then some v else dictGet k rest

/-- Python `dict[k] = v`: replace in place if the key exists, else append. -/
def dictSet (k v : RVal) : Cache → Cache
  | [] => [(k, v)]
  | (k', v') :: rest => if k' = k then (k, v) :: rest else (k', v') :: dictSet k v rest

/-- CacheEvent.is_object_registered (events.py lines 95-102):
`obj is not None and cache.get(name, None) == obj`. -/
def CacheEvent.is_object_registered (obj name : RVal) (cache : Cache) : Bool :=
  obj != .noneV && dictGet name cache == some obj

/-- CacheEvent.register_object (events.py lines 104-112): `cache[name] = obj`
(the source returns the name; the updated cache is the useful output here). -/
def CacheEvent.register_object (obj name : RVal) (cache : Cache) : Cache :=
  dictSet name obj cache

/-- CacheEvent._cache_object_with_register (events.py lines 162-180): compute
the object key; if the object is not a primitive, not None, and either
`re_register` is forced or the object is not currently registered, register
it and append the `[object_id, obj]` pair to the event's register list.
Returns `(object_id, updated cache, this event's register-list entries)` —
each CacheEvent starts with `self.register = []` and calls this once for
its receiver, so the third component is exactly the event's register list. -/
def CacheEvent._cache_object_with_register (obj : RVal) (reRegister : Bool)
    (cache : Cache) : RVal × Cache × List (RVal × RVal) :=
  let object_id := CacheEvent.get_object_key obj
  if !doNotRegister obj && obj != .noneV &&
      (reRegister || !CacheEvent.is_object_registered obj object_id cache)
  then (object_id, CacheEvent.register_object obj object_id cache, [(object_id, obj)])
  else (object_id, cache, [])

/-- Construct `n` successive CacheEvents for the same receiver against an
evolving cache (each construction runs `_cache_object_with_register` once)
and collect each event's register list, in construction order. -/
def cacheEventRegisters (obj : RVal) (reRegister : Bool) :
    Nat → Cache → List (List (RVal × RVal))
  | 0, _ => []
  | n + 1, cache =>
      let r := CacheEvent._cache_object_with_register obj reRegister cache
      r.2.2 :: cacheEventRegisters obj reRegister n r.2.1

/-- One observation of the world made by a `LoopQueueSize.__next__` call:
the liveness flag, the parent-process probe, and the queue size it would
read if it took a snapshot at that call. -/
structure LQObs where
  isSet : Bool
  parentAlive : Bool
  qsize : Nat
  deriving DecidableEq

/-- The mutable state of a LoopQueueSize iterator (mp_functions.py lines
49-78): `countdown` starts at -1. -/
structure LoopQueueSize where
  countdown : Int
  deriving DecidableEq

/-- LoopQueueSize.__next__ (mp_functions.py lines 65-78): while counting
down, decrement and yield; at zero, raise StopIteration (`none`); otherwise
(countdown negative) consult liveness: if still alive yield without change,
else snapshot the queue size — StopIteration immediately if it is zero,
else start the countdown from it and yield. -/
def LoopQueueSize.next (o : LQObs) (s : LoopQueueSize) : Option LoopQueueSize :=
  if s.countdown > 0 then some ⟨s.countdown - 1⟩
  else if s.countdown = 0 then none
  else
    if o.isSet && o.parentAlive then some s
    else if o.qsize = 0 then none
    else some ⟨(o.qsize : Int)⟩

/-- Drive a LoopQueueSize through a sequence of world observations, one per
`__next__` call; `none` means the iterator raised StopIteration at or
before the last consumed observation. -/
def lqsRun (s : LoopQueueSize) : List LQObs → Option LoopQueueSize
  | [] => some s
  | o :: rest =>
      match s.next o with
      | none => none
      | some s' => lqsRun s' rest

/-- An Event instance as the submission methods see it: the fields relevant
to enqueueing (`event_key`, `has_output` which may be None, and whether it
is a CacheEvent). -/
structure PyEvent where
  key : Option Nat
  hasOutput : Option Bool
  isCache : Bool
  deriving DecidableEq

/-- The `target` argument of add_event / add_cache_event: a pre-built Event
(or CacheEvent) instance, or an ad-hoc callable. -/
inductive AddTarget
  | evt (e : PyEvent)
  | call (fid : Nat)
  deriving DecidableEq

/-- Python `a or b` on a None-or-bool left operand: `None` and `False` are
falsy, so only `some true` short-circuits. -/
def pyOr (a b : Option Bool) : Option Bool :=
  match a with
  | some true => some true
  | _ => b

/-- Python `a or b` on None-or-key operands (`event_key or target.event_key`;
keys are modelled as always-truthy when present). -/
def pyOrK (a b : Option Nat) : Option Nat :=
  if a.isSome then a else b

/-- EventLoop.add_cache_event (event_loop.py lines 140-178): a CacheEvent
instance passes through unchanged; a plain Event instance donates its
fields (`has_output or target.has_output`, then None resolved to True) to a
fresh CacheEvent; an ad-hoc callable gets `has_output` resolved to True
when unspecified.  Only the enqueued event is modelled — the cache
registration side effects of CacheEvent construction are covered by
`CacheEvent._cache_object_with_register`. -/
def EventLoop.add_cache_event (target : AddTarget) (has_output : Option Bool)
    (event_key : Option Nat) : PyEvent :=
  match target with
  | .evt e =>
      if e.isCache then e
      else
        let ho := pyOr has_output e.hasOutput
        { key := pyOrK event_key e.key
          hasOutput := some (ho.getD true)
          isCache := true }
  | .call _ =>
      { key := event_key
        hasOutput := some (has_output.getD true)
        isCache := true }

/-- EventLoop.add_event (event_loop.py lines 109-138): with `cache` set it
delegates to add_cache_event; an Event instance (CacheEvent included — the
isinstance check matches the subclass) is enqueued unchanged; an ad-hoc
callable is wrapped in a fresh Event with `has_output` resolved to True
when unspecified.  Returns the event that is put on the event queue. -/
def EventLoop.add_event (target : AddTarget) (has_output : Option Bool)
    (event_key : Option Nat) (cache : Bool) : PyEvent :=
  if cache then EventLoop.add_cache_event target has_output event_key
  else
    match target with
    | .evt e => e
    | .call _ =>
        { key := event_key
          hasOutput := some (has_output.getD true)
          isCache := false }

/-- Python `list.insert(pos, a)` for a non-negative effective position:
inserts before index `pos`, appending when `pos` is past the end. -/
def pyInsertAt (a : α) : Nat → List α → List α
  | _, [] => [a]
  | 0, l => a :: l
  | n + 1, x :: l => x :: pyInsertAt a n l

/-- Python's effective index for `list.insert`: a negative index counts from
the end and clamps at 0. -/
def pyIndex (idx : Int) (len : Nat) : Nat :=
  if idx < 0 then ((len : Int) + idx).toNat else idx.toNat

/-- EventLoop.add_output_handler (event_loop.py lines 69-79): append the
handler only when it is not already present. -/
def EventLoop.add_output_handler (h : Nat) (l : List Nat) : List Nat :=
  if h ∈ l then l else l ++ [h]

/-- EventLoop.insert_output_handler (event_loop.py lines 81-93): remove the
first existing occurrence (guarded by a membership test), then insert at
the requested index with Python `list.insert` semantics. -/
def EventLoop.insert_output_handler (idx : Int) (h : Nat) (l : List Nat) :
    List Nat :=
  let l' := if h ∈ l then l.erase h else l
  pyInsertAt h (pyIndex idx l'.length) l'

/-- A call to one of the two handler-registration methods. -/
inductive HandlerOp
  | add (h : Nat)
  | ins (idx : Int) (h : Nat)
  deriving DecidableEq

/-- Apply a sequence of handler-registration calls to a handler list. -/
def applyHandlerOps : List HandlerOp → List Nat → List Nat
  | [], l => l
  | .add h :: rest, l => applyHandlerOps rest (EventLoop.add_output_handler h l)
  | .ins i h :: rest, l => applyHandlerOps rest (EventLoop.insert_output_handler i h l)

/-- A stream object as held by a pending iter event: either something with
`__iter__` but no usable `next()` (a list, a string — `next()` raises
TypeError), or an iterator with its remaining steps. -/
inductive IterObj
  | notIter
  | gen (steps : List IterStep)
  deriving DecidableEq

/-- Outcome of one `next(event.iter)` call. -/
inductive NextOut
  | value (v : Int)
  | stopIter
  | typeErr
  | raiseS (code : Nat)
  deriving DecidableEq

/-- Advance a stream one step: the new stream state and the call outcome. -/
def iterNext : IterObj → IterObj × NextOut
  | .notIter => (.notIter, .typeErr)
  | .gen [] => (.gen [], .stopIter)
  | .gen (.yieldV v :: r) => (.gen r, .value v)
  | .gen (.raiseE c :: r) => (.gen r, .raiseS c)

/-- is_iterable (iter_event_loop.py lines 99-101):
`not callable(obj) and (hasattr(obj, '__iter__') and not type(obj) == type)`.
Lists, strings and generators have `__iter__`; None, numbers and plain
objects do not; callables are excluded (no value of type `type` occurs). -/
def is_iterable (v : RVal) : Bool :=
  match v with
  | .listV _ => true
  | .genV _ => true
  | .strV _ => true
  | _ => false

/-- The iterator object bound by `event.iter = event.results`: a generator
carries its steps; lists and strings support `iter()` but not `next()`. -/
def resultToIter (v : RVal) : IterObj :=
  match v with
  | .genV steps => .gen steps
  | _ => .notIter

/-- Python truthiness of a None-or-bool field (`elif event.has_output:`,
`if ... new_event.has_output:`): only True is truthy. -/
def truthyOpt : Option Bool → Bool
  | some true => true
  | _ => false

/-- A pending stream task in the `iter_events` list: the original event's key and
has_output, its `results` binding at registration time, and the iterator
state of `event.iter` (in the source both names alias one mutating object). -/
structure SEvent where
  key : Option Nat
  hasOutput : Option Bool
  resultsObj : RVal
  iter : IterObj
  deriving DecidableEq

/-- The inner `for i in range(len(iter_events))` pass of run_iter_event_loop
(iter_event_loop.py lines 77-94), one step per index of the range that was
computed before the pass started.  `cur` is the live list, `offset` the
source's pop-compensation counter, `emits` the consumer-queue puts and
`dones` the `mark_task_done` count so far.  The element is read at the
offset-adjusted position, but — exactly as in the source — `pop(i)` uses
the unadjusted loop index; an out-of-range pop is the IndexError the source
would raise (`Except.error`). -/
def streamPassAux (hasConsumer : Bool) :
    List Nat → List SEvent → Int → List Emit → Nat →
    Except Unit (List SEvent × List Emit × Nat)
  | [], cur, _, emits, dones => .ok (cur, emits, dones)
  | i :: is, cur, offset, emits, dones =>
      match cur.get? ((Int.ofNat i + offset).toNat) with
      | none => .error ()
      | some ev =>
          match iterNext ev.iter with
          | (_, .stopIter) =>
              if i < cur.length then
                streamPassAux hasConsumer is (cur.eraseIdx i) (offset - 1) emits (dones + 1)
              else .error ()
          | (_, .typeErr) =>
              if i < cur.length then
                streamPassAux hasConsumer is (cur.eraseIdx i) (offset - 1) emits (dones + 1)
              else .error ()
          | (it', .value v) =>
              let cur' := cur.set ((Int.ofNat i + offset).toNat) { ev with iter := it' }
              let emits' :=
                if hasConsumer && truthyOpt ev.hasOutput then
                  emits ++ [{ key := ev.key, results := .intV v, error := none }]
                else emits
              streamPassAux hasConsumer is cur' offset emits' dones
          | (it', .raiseS c) =>
              let cur' := cur.set ((Int.ofNat i + offset).toNat) { ev with iter := it' }
              let emits' :=
                if hasConsumer && truthyOpt ev.hasOutput then
                  emits ++ [{ key := ev.key, results := ev.resultsObj, error := some (.raised c) }]
                else emits
              streamPassAux hasConsumer is cur' offset emits' dones

/-- One full pass over the pending streams: iterate the indices
`range(len(iter_events))` captured at pass start. -/
def streamPass (hasConsumer : Bool) (pending : List SEvent) :
    Except Unit (List SEvent × List Emit × Nat) :=
  streamPassAux hasConsumer (List.range pending.length) pending 0 [] 0

/-- An Event instance as the streaming dispatch loop executes it. -/
structure IEvent where
  key : Option Nat
  hasOutput : Option Bool
  target : TVal
  args : List RVal

/-- What a queue get returned: an Event instance, or some non-Event object
(which the loop ignores). -/
inductive QFetched
  | evn (e : IEvent)
  | junk

/-- The event-handling prefix of one outer iteration of run_iter_event_loop
(iter_event_loop.py lines 65-75): execute the fetched Event; with a
consumer queue, an iterable result is appended to the pending-stream list
(no put, no task_done yet), otherwise a truthy has_output forwards the
executed event to the consumer queue and marks the task-queue slot done;
in every remaining case nothing happens.  Returns the new pending list, the
consumer puts and the task_done count of this phase. -/
def iterProcessFetched (hasConsumer : Bool) (fetched : Option QFetched)
    (pending : List SEvent) : List SEvent × List Emit × Nat :=
  match fetched with
  | some (.evn e) =>
      let r := Event.exec_ e.target e.args
      if hasConsumer then
        if is_iterable r.1 then
          (pending ++ [{ key := e.key, hasOutput := e.hasOutput,
                         resultsObj := r.1, iter := resultToIter r.1 }], [], 0)
        else if truthyOpt e.hasOutput then
          (pending, [{ key := e.key, results := r.1, error := r.2 }], 1)
        else (pending, [], 0)
      else (pending, [], 0)
  | _ => (pending, [], 0)

/-- One whole outer iteration of run_iter_event_loop: the event-handling
prefix followed by the pass over the pending streams.  `Except.error` is
the IndexError escaping the loop. -/
def run_iter_event_loop_body (hasConsumer : Bool) (fetched : Option QFetched)
    (pending : List SEvent) : Except Unit (List SEvent × List Emit × Nat) :=
  let r1 := iterProcessFetched hasConsumer fetched pending
  match streamPass hasConsumer r1.1 with
  | .error e => .error e
  | .ok (p2, e2, d2) => .ok (p2, r1.2.1 ++ e2, r1.2.2 + d2)

/-- One iteration of the standard dispatch loop run_event_loop
(mp_functions.py lines 153-181): when the timed get produced an item,
process it (process_event puts the executed event on the consumer queue
only when a consumer queue exists and has_output is truthy; non-Event
items are ignored) and — in the `finally` block — mark the slot done
exactly once; a get that timed out (`fetched = none`) touches nothing.
Returns the consumer puts and the task_done count. -/
def run_event_loop_body (hasConsumer : Bool) (fetched : Option QFetched) :
    List Emit × Nat :=
  match fetched with
  | none => ([], 0)
  | some (.evn e) =>
      let r := Event.exec_ e.target e.args
      (if hasConsumer && truthyOpt e.hasOutput then
         [{ key := e.key, results := r.1, error := r.2 }]
       else [], 1)
  | some .junk => ([], 1)

theorem runHandlers_eq_chain (ev : Emit) (handlers : List Handler) :
    runHandlers ev handlers = chainSpecInvoked ev handlers := by
  induction handlers with
  | nil => simp [runHandlers, chainSpecInvoked]
  | cons h rest ih =>
    cases hfn : h.fn ev with
    | true => simp [runHandlers, chainSpecInvoked, hfn]
    | false => simpa [runHandlers, chainSpecInvoked, hfn] using ih

/-- Claim C1 (counterexample): contrary to the claim, `EventLoop.stop` puts
no stop sentinel on the task channel (nor the consumer channel), even with
results enabled: stopping a loop with empty queues leaves both queues
sentinel-free. -/
theorem stop_no_sentinel_counterexample :
    QItem.sentinel ∉ (EventLoop.stop ⟨true, true, [], [], false, false⟩).taskQueue ∧
    QItem.sentinel ∉ (EventLoop.stop ⟨true, true, [], [], false, false⟩).consumerQueue := by
  exact ⟨by decide, by decide⟩

/-- Claim C1 (amended): `stop()` clears the liveness flag and joins the
worker (and the consumer exactly when results are enabled); it performs no
queue operation at all — no sentinel or any other value is pushed onto the
task or consumer channel; blocked receives unblock via their bounded
timeout together with the cleared flag. -/
theorem stop_clears_flag_joins_pushes_nothing (s : ELState) :
    (EventLoop.stop s).alive = false ∧
    (EventLoop.stop s).taskQueue = s.taskQueue ∧
    (EventLoop.stop s).consumerQueue = s.consumerQueue ∧
    (EventLoop.stop s).eventJoined = true ∧
    (EventLoop.stop s).consumerJoined = (s.consumerJoined || s.hasResults) := by
  exact ⟨rfl, rfl, rfl, rfl, rfl⟩

/-- Claim C3 (counterexample): a plain Event whose target is None stores
neither a result nor an error — in particular not the "invalid target"
error the claim requires for this case. -/
theorem exec_none_target_counterexample :
    Event.exec_ (.value .noneV) [] = (.noneV, none) ∧
    (Event.exec_ (.value .noneV) []).2 ≠ some PErr.invalidTarget := by
  exact ⟨rfl, by decide⟩

/-- Claim C3 (amended): executing a Task: a callable target is invoked with
the stored args and either its value is stored as results or a raised
exception is caught and stored as error; a CacheEvent whose target is
absent (None) with a receiver object present stores the receiver as the
result, and stores the "invalid target" error in every other non-callable
case; a plain Event whose target is None stores neither a result nor an
error (silent no-op), and stores the "invalid target" error only for a
non-None non-callable target.  Both exec functions are total — execution
never raises out of `exec_`. -/
theorem exec_characterization (f : List RVal → Except Nat RVal)
    (args : List RVal) (v object : RVal) :
    Event.exec_ (.func f) args =
      (match f args with
       | .ok r => (r, none)
       | .error c => (.noneV, some (.raised c))) ∧
    CacheEvent.exec_ (.func f) args object =
      (match f args with
       | .ok r => (r, none)
       | .error c => (.noneV, some (.raised c))) ∧
    Event.exec_ (.value v) args =
      (if v = .noneV then (.noneV, none) else (.noneV, some .invalidTarget)) ∧
    CacheEvent.exec_ (.value v) args object =
      (if v = .noneV then
         (if object = .noneV then (.noneV, some .invalidTarget) else (object, none))
       else (.noneV, some .invalidTarget)) := by
  refine ⟨rfl, rfl, ?_, ?_⟩
  · cases v <;> simp [Event.exec_]
  · cases v <;> simp [CacheEvent.exec_]

/-- Claim C4 (confirmed): in `process_output`, an event with its error field
set bypasses every output handler and the error is reported on the default
path; an event without error runs the handlers in insertion order and the
first handler returning true stops the chain (`chainSpecInvoked` is the
spec-side statement of that contract). -/
theorem process_output_contract (ev : Emit) (handlers : List Handler) :
    EventLoop.process_output ev handlers =
      match ev.error with
      | some e => (some e, [])
      | none => (none, chainSpecInvoked ev handlers) := by
  cases herr : ev.error with
  | some e => simp [EventLoop.process_output, herr]
  | none => simp [EventLoop.process_output, herr, runHandlers_eq_chain]

/-- Claim C8 (counterexample): a pre-built Event carrying `has_output=None`
passed to `add_event` is enqueued unchanged — the queue receives an event
whose has_output is None, not a concrete boolean. -/
theorem add_event_none_passthrough_counterexample :
    (EventLoop.add_event
        (.evt { key := none, hasOutput := none, isCache := false })
        none none false).hasOutput = none := rfl

/-- Claim C8 (amended): events that `add_event`/`add_cache_event` construct
themselves always carry a concrete boolean has_output (an unspecified value
resolves to True, and for an Event donated to `add_cache_event` the Python
`has_output or target.has_output` result is resolved the same way); but a
pre-built Event or CacheEvent instance passed as the target is enqueued
unchanged and may carry has_output = None. -/
theorem add_event_has_output_resolution (t : AddTarget) (ho : Option Bool)
    (ek : Option Nat) (c : Bool) :
    (EventLoop.add_event t ho ek c).hasOutput =
      (match t, c with
       | .evt e, false => e.hasOutput
       | .evt e, true =>
           if e.isCache then e.hasOutput else some ((pyOr ho e.hasOutput).getD true)
       | .call _, _ => some (ho.getD true)) := by
  cases t with
  | evt e =>
    cases c with
    | false => rfl
    | true =>
      by_cases hc : e.isCache <;>
        simp [EventLoop.add_event, EventLoop.add_cache_event, hc]
  | call fid => cases c <;> rfl

/-- Claim C2 (counterexample): in the streaming dispatch loop, an event with
`has_output=False` whose execution returns a non-iterable value (here an
int) is pulled, executed — and its queue slot is never marked complete: the
iteration performs zero `task_done` calls, not exactly one. -/
theorem iter_loop_task_done_counterexample :
    run_iter_event_loop_body true
        (some (.evn { key := some 0, hasOutput := some false,
                      target := .func (fun _ => .ok (.intV 7)), args := [] })) [] =
      .ok ([], [], 0) := rfl

/-- Claim C2 (amended): in the standard dispatch loop, every pulled item —
Event or not, with or without output, error or not — is marked complete
exactly once (and a timed-out get marks nothing); in the streaming loop the
event-handling phase marks a pulled event complete only when it is
forwarded to the consumer queue (consumer queue present, non-iterable
result, truthy has_output) — an event failing that condition is not marked
there (it is marked later only if it joined the pending-stream list and its
stream is removed). -/
theorem task_done_accounting (hc : Bool) (fetched : Option QFetched)
    (e : IEvent) (pending : List SEvent) :
    (run_event_loop_body hc fetched).2 = (if fetched.isSome then 1 else 0) ∧
    (iterProcessFetched hc (some (.evn e)) pending).2.2 =
      (if hc && !is_iterable (Event.exec_ e.target e.args).1 && truthyOpt e.hasOutput
       then 1 else 0) := by
  constructor
  · cases fetched with
    | none => rfl
    | some f => cases f <;> rfl
  · cases hc with
    | false => simp [iterProcessFetched]
    | true =>
      by_cases hit : is_iterable (Event.exec_ e.target e.args).1
      · simp [iterProcessFetched, hit]
      · by_cases hho : truthyOpt e.hasOutput <;>
          simp [iterProcessFetched, hit, hho]

/-- Claim C7 (code bug, witnessed): two pending streams that both signal
exhaustion in the same inner pass crash the dispatch loop.  The source pops
with the unadjusted loop index (`iter_events.pop(i)` instead of
`pop(i + offset)`): after the first removal, the second exhausted stream
triggers `pop(1)` on a one-element list, raising the IndexError that
escapes `run_iter_event_loop` — instead of removing the exhausted stream
and continuing, as the claim (and the offset bookkeeping itself) intends. -/
theorem iter_pop_index_error :
    streamPass true
        [{ key := some 1, hasOutput := some true, resultsObj := .genV [],
           iter := .gen [] },
         { key := some 2, hasOutput := some true, resultsObj := .genV [],
           iter := .gen [] }] =
      .error () := rfl

/-- Claim C9 (confirmed): a non-callable result with `__iter__` that is not
an iterator (a list of any size) is classified as a stream — appended to
the pending list with nothing put on the consumer queue and no task_done —
and on its first advancement `next()` raises TypeError, which is handled
exactly like exhaustion: the event is removed from the pending list and its
slot marked done, with no Result ever reaching the consumer queue. -/
theorem list_result_classified_then_dropped (n : Nat) (k : Option Nat)
    (ho : Option Bool) (pending : List SEvent) :
    iterProcessFetched true
        (some (.evn { key := k, hasOutput := ho,
                      target := .func (fun _ => .ok (.listV n)), args := [] }))
        pending =
      (pending ++ [{ key := k, hasOutput := ho, resultsObj := .listV n,
                     iter := .notIter }], [], 0) ∧
    streamPass true
        [{ key := k, hasOutput := ho, resultsObj := .listV n, iter := .notIter }] =
      .ok ([], [], 1) := by
  exact ⟨rfl, rfl⟩

theorem dictGet_dictSet (k v : RVal) (c : Cache) :
    dictGet k (dictSet k v c) = some v := by
  induction c with
  | nil => simp [dictGet, dictSet]
  | cons p rest ih =>
    by_cases h : p.1 = k
    · simp [dictGet, dictSet, h]
    · simp [dictGet, dictSet, h, ih]

theorem registered_after_register (obj key : RVal) (c : Cache)
    (h : (obj != .noneV) = true) :
    CacheEvent.is_object_registered obj key (CacheEvent.register_object obj key c) = true := by
  simp [CacheEvent.is_object_registered, CacheEvent.register_object, dictGet_dictSet]
  simpa using h

theorem cacheEventRegisters_of_registered (obj : RVal) (n : Nat) :
    ∀ c : Cache,
      CacheEvent.is_object_registered obj (CacheEvent.get_object_key obj) c = true →
      cacheEventRegisters obj false n c = List.replicate n [] := by
  induction n with
  | zero => intro c _; rfl
  | succ n ih =>
    intro c h
    unfold cacheEventRegisters CacheEvent._cache_object_with_register
    simp only [h, Bool.not_true, Bool.false_or, Bool.and_false]
    simpa [List.replicate_succ] using ih c h

/-- Claim C5 (confirmed): for a fixed cache and a fixed (registrable,
generic-object) receiver, constructing any number of non-forced CacheEvents
starting from a cache where the receiver is not yet registered puts the
`(key, object)` pair in the register list of only the first event — every
later one carries an empty register list — while a construction with
`re_register=True` appends the pair regardless of the cache state. -/
theorem cache_registration_once (i : Nat) (c0 : Cache) (n : Nat)
    (h : CacheEvent.is_object_registered (.objV i)
          (CacheEvent.get_object_key (.objV i)) c0 = false) :
    cacheEventRegisters (.objV i) false (n + 1) c0 =
      [(CacheEvent.get_object_key (.objV i), .objV i)] :: List.replicate n [] ∧
    ∀ c : Cache,
      (CacheEvent._cache_object_with_register (.objV i) true c).2.2 =
        [(CacheEvent.get_object_key (.objV i), .objV i)] := by
  constructor
  · unfold cacheEventRegisters CacheEvent._cache_object_with_register
    simp only [h, Bool.not_false, Bool.or_true, Bool.and_true]
    simp only [doNotRegister, Bool.not_false, Bool.true_and]
    rw [if_pos]
    · refine congrArg _ ?_
      exact cacheEventRegisters_of_registered _ n _
        (registered_after_register _ _ _ (by simp))
    · simp
  · intro c
    unfold CacheEvent._cache_object_with_register
    simp [doNotRegister]

theorem cache_registration_once_witness :
    cacheEventRegisters (.objV 0) false 3 [] =
      [(CacheEvent.get_object_key (.objV 0), .objV 0)] :: List.replicate 2 [] ∧
    (CacheEvent._cache_object_with_register (.objV 0) true []).2.2 =
      [(CacheEvent.get_object_key (.objV 0), .objV 0)] := by
  have h := cache_registration_once 0 [] 2 (by decide)
  exact ⟨h.1, h.2 []⟩

theorem lqsRun_countdown (obs : List LQObs) : ∀ m : Nat,
    lqsRun ⟨(m : Int)⟩ obs =
      if obs.length ≤ m then some ⟨(m : Int) - obs.length⟩ else none := by
  induction obs with
  | nil => intro m; simp [lqsRun]
  | cons o rest ih =>
    intro m
    cases m with
    | zero =>
      simp [lqsRun, LoopQueueSize.next]
    | succ m' =>
      have hnext : LoopQueueSize.next o ⟨((m' + 1 : Nat) : Int)⟩ =
          some ⟨((m' : Nat) : Int)⟩ := by
        have hpos : (0 : Int) < ((m' + 1 : Nat) : Int) := by exact_mod_cast Nat.succ_pos m'
        have hstep : ((m' + 1 : Nat) : Int) - 1 = ((m' : Nat) : Int) := by push_cast; ring
        rw [LoopQueueSize.next, if_pos hpos, hstep]
      simp only [lqsRun, hnext, ih m', List.length_cons]
      split_ifs with h1 h2 h2
      · simp only [Option.some.injEq, LoopQueueSize.mk.injEq]
        push_cast
        ring
      · omega
      · omega
      · rfl

/-- Claim C6 (confirmed): once the liveness flag is cleared or the parent
process is dead at a `__next__` call with no countdown running, the
iterator snapshots the queue size of that single call: with snapshot 0 it
stops immediately, otherwise it survives exactly `snapshot` further calls
past the snapshot call and then stops — whatever the later observations
say (queue sizes may keep growing, liveness may even return), so the loop
always terminates after liveness loss and never drains unboundedly. -/
theorem loop_queue_size_bounded_drain (o : LQObs) (obs : List LQObs)
    (hdead : (o.isSet && o.parentAlive) = false) :
    lqsRun ⟨-1⟩ (o :: obs) =
      (if o.qsize = 0 then none
       else if obs.length ≤ o.qsize then some ⟨(o.qsize : Int) - obs.length⟩
       else none) := by
  have hfirst : LoopQueueSize.next o ⟨-1⟩ =
      (if o.qsize = 0 then none else some ⟨(o.qsize : Int)⟩) := by
    have h1 : ¬((-1 : Int) > 0) := by norm_num
    have h2 : ¬((-1 : Int) = 0) := by norm_num
    rw [LoopQueueSize.next, if_neg h1, if_neg h2, hdead]
    simp
  by_cases hq : o.qsize = 0
  · simp [lqsRun, hfirst, hq]
  · simp only [lqsRun, hfirst, if_neg hq]
    rw [lqsRun_countdown obs o.qsize]

theorem loop_queue_size_bounded_drain_witness :
    lqsRun ⟨-1⟩ [⟨false, true, 2⟩, ⟨true, true, 9⟩, ⟨true, true, 9⟩,
        ⟨true, true, 9⟩] = none := by
  have h := loop_queue_size_bounded_drain ⟨false, true, 2⟩
      [⟨true, true, 9⟩, ⟨true, true, 9⟩, ⟨true, true, 9⟩] rfl
  simpa using h

theorem count_pyInsertAt (a b : Nat) (n : Nat) (l : List Nat) :
    (pyInsertAt a n l).count b = l.count b + (if a = b then 1 else 0) := by
  induction n generalizing l with
  | zero =>
    cases l with
    | nil => simp [pyInsertAt, List.count_cons]
    | cons x xs =>
      simp only [pyInsertAt, List.count_cons, beq_iff_eq]
  | succ n ih =>
    cases l with
    | nil => simp [pyInsertAt, List.count_cons]
    | cons x xs =>
      simp only [pyInsertAt, List.count_cons, beq_iff_eq, ih]
      ring

theorem add_output_handler_count (h : Nat) (l : List Nat)
    (hl : ∀ b, l.count b ≤ 1) (a : Nat) :
    (EventLoop.add_output_handler h l).count a ≤ 1 := by
  unfold EventLoop.add_output_handler
  by_cases hm : h ∈ l
  · simpa [hm] using hl a
  · simp only [hm, if_neg, ite_false]
    rw [List.count_append]
    by_cases hha : h = a
    · subst hha
      have h0 : l.count h = 0 := List.count_eq_zero.mpr hm
      simp [h0]
    · have h0 : List.count a [h] = 0 := by
        simp [List.count_singleton', hha]
      rw [h0]
      simpa using hl a

theorem insert_output_handler_count (idx : Int) (h : Nat) (l : List Nat)
    (hl : ∀ b, l.count b ≤ 1) (a : Nat) :
    (EventLoop.insert_output_handler idx h l).count a ≤ 1 := by
  unfold EventLoop.insert_output_handler
  have hcount : ∀ b, (if h ∈ l then l.erase h else l).count b ≤ 1 := by
    intro b
    by_cases hm : h ∈ l
    · simp only [hm, ite_true]
      calc (l.erase h).count b ≤ l.count b := (l.erase_sublist h).count_le b
        _ ≤ 1 := hl b
    · simpa [hm] using hl b
  have hzero : (if h ∈ l then l.erase h else l).count h = 0 := by
    by_cases hm : h ∈ l
    · simp only [hm, ite_true]
      have := List.count_erase_self h l
      have h1 := hl h
      omega
    · simp only [hm, ite_false]
      exact List.count_eq_zero.mpr hm
  rw [count_pyInsertAt]
  by_cases hha : h = a
  · subst hha
    simp [hzero]
  · simp only [hha, ite_false]
    simpa using hcount a

/-- Claim C10 (confirmed): starting from any duplicate-free handler list,
every sequence of `add_output_handler` / `insert_output_handler` calls
keeps each handler occurring at most once: add appends only when absent,
and insert removes the (unique) existing occurrence before inserting. -/
theorem output_handlers_no_duplicates (ops : List HandlerOp) (init : List Nat)
    (hinit : ∀ b, init.count b ≤ 1) (a : Nat) :
    (applyHandlerOps ops init).count a ≤ 1 := by
  induction ops generalizing init with
  | nil => exact hinit a
  | cons op rest ih =>
    cases op with
    | add h => exact ih _ (fun b => add_output_handler_count h init hinit b)
    | ins i h => exact ih _ (fun b => insert_output_handler_count i h init hinit b)

theorem output_handlers_no_duplicates_witness :
    (applyHandlerOps [.add 5, .add 5, .ins 0 5, .add 7, .ins (-1) 7] []).count 5 ≤ 1 :=
  output_handlers_no_duplicates [.add 5, .add 5, .ins 0 5, .add 7, .ins (-1) 7] []
    (fun b => by simp) 5
